import Mathlib

/-!
Shallow embedding of the xfetch crate (`src/lib.rs`), which implements the
XFetch probabilistic early-expiration algorithm for cache entries.

Modelling conventions:

* Instants (`std::time::Instant`) and durations (`std::time::Duration`) are
  real numbers measured in milliseconds.  A `Duration` is nonnegative by
  construction in Rust; theorems carry `0 ≤ _` hypotheses where that matters.
* `f32` arithmetic is idealised as exact real arithmetic.  The integer
  effects of the source are kept exactly: `Duration::as_millis()` truncates
  to whole milliseconds (`Int.floor` on a nonnegative real), `f32::round`
  rounds half away from zero (which on the nonnegative arguments that occur
  agrees with Mathlib `round`, and any negative argument is sent to `0` by
  the subsequent cast either way), and the Rust `as u64` cast saturates into
  `[0, 2^64 - 1]`.
* The random source is modelled by passing the drawn sample `r` as an
  argument.  The `rand` distribution `OpenClosed01` for `f32` yields values
  in `(0, 1]`, the least being `2⁻²⁴` (obtained from the all-zero mock rng)
  and the greatest being `1` (obtained from the all-ones mock rng).
  The sample `r = 0` models an underflowed draw: there `-ln 0 = +∞` in IEEE
  arithmetic, `∞ * p = ∞` for `p > 0` saturates to `u64::MAX` under the
  cast, while `∞ * 0 = NaN` and `∞ * n = -∞` for `n < 0` are both cast
  to `0`.
* `Instant::now()` inside a method is modelled by an explicit `now` (or, for
  `with_ttl`, the instant `t` at which the setter runs) parameter.
-/

namespace XFetch

/-- Value of `u64::MAX`, the upper saturation bound of the Rust `as u64`
cast appearing in `is_expired_with_rng`. -/
def U64_MAX : ℕ := 2 ^ 64 - 1

/-- Model of `x.round() as u64` for a finite `f32` value `x`: round half away
from zero, then saturate into `[0, u64::MAX]`.  For `x ≥ 0` Mathlib `round`
agrees with `f32::round`; for `x < 0` both conventions round to a nonpositive
integer, which the cast saturates to `0` (`Int.toNat`). -/
noncomputable def roundSatU64 (x : ℝ) : ℕ := min U64_MAX (round x).toNat

/-- Model of the horizon expression
`(delta * self.beta * -rand.ln()).round() as u64` of `is_expired_with_rng`,
in milliseconds.  `deltaMs` is the already-truncated `self.delta.as_millis()
as f32` value.  The branch `r = 0` models the underflowed draw per IEEE
semantics: the product is `+∞` when `deltaMs * beta > 0` (saturating to
`u64::MAX`), and `NaN` or `-∞` otherwise (both cast to `0`). -/
noncomputable def xfetchMillis (deltaMs beta r : ℝ) : ℕ :=
  if r = 0 then (if 0 < deltaMs * beta then U64_MAX else 0)
  else roundSatU64 (deltaMs * beta * (-Real.log r))

/-- Default beta constant `DEFAULT_BETA: f32 = 1.0` of the source. -/
def DEFAULT_BETA : ℝ := 1

/-- The builder struct `CacheEntryBuilder<T>` of the source: the cached
value, the recompute cost `delta` (milliseconds), the `beta` factor and the
optional absolute expiry instant (milliseconds). -/
structure CacheEntryBuilder (T : Type) where
  value : T
  delta : ℝ
  beta : ℝ
  expiry : Option ℝ

/-- The struct `CacheEntry<T>` of the source, same four fields as the
builder. -/
structure CacheEntry (T : Type) where
  value : T
  delta : ℝ
  beta : ℝ
  expiry : Option ℝ

/-- Model of `CacheEntry::new`: the closure has already been run, producing
`value`; `measured` is the elapsed wall-clock time of that run, stored as the
default `delta`.  `beta` defaults to `DEFAULT_BETA` and `expiry` to `None`. -/
def CacheEntry.new {T : Type} (value : T) (measured : ℝ) : CacheEntryBuilder T :=
  ⟨value, measured, DEFAULT_BETA, none⟩

/-- Model of `CacheEntryBuilder::with_beta`: overwrite `beta`, keep the
rest. -/
def CacheEntryBuilder.with_beta {T : Type} (b : CacheEntryBuilder T) (beta : ℝ) :
    CacheEntryBuilder T :=
  { b with beta := beta }

/-- Model of `CacheEntryBuilder::with_delta`: overwrite `delta` with
`f` applied to a read-only view of the stored value, keep the rest. -/
def CacheEntryBuilder.with_delta {T : Type} (b : CacheEntryBuilder T) (f : T → ℝ) :
    CacheEntryBuilder T :=
  { b with delta := f b.value }

/-- Model of `CacheEntryBuilder::with_ttl`: `t` is `Instant::now()` at the
moment this setter executes; the absolute expiry becomes `t + f value`. -/
def CacheEntryBuilder.with_ttl {T : Type} (b : CacheEntryBuilder T) (t : ℝ) (f : T → ℝ) :
    CacheEntryBuilder T :=
  { b with expiry := some (t + f b.value) }

/-- Model of `CacheEntryBuilder::build`: move all four fields into the
entry unchanged. -/
def CacheEntryBuilder.build {T : Type} (b : CacheEntryBuilder T) : CacheEntry T :=
  ⟨b.value, b.delta, b.beta, b.expiry⟩

/-- Model of `CacheEntry::is_expired_with_rng`.  `now` is `Instant::now()`
at the moment of the call and `r` is the single sample drawn from the rng
via `OpenClosed01`.  When `expiry` is absent the answer is `false`; otherwise
the horizon `xfetchMillis` (a whole number of milliseconds, as produced by
`Duration::from_millis`) is added to `now` and compared against `expiry`.
The truncation `self.delta.as_millis()` is `⌊delta⌋`. -/
noncomputable def CacheEntry.is_expired_with_rng {T : Type} (e : CacheEntry T)
    (now r : ℝ) : Prop :=
  match e.expiry with
  | some expiry => now + (xfetchMillis ((⌊e.delta⌋ : ℤ) : ℝ) e.beta r : ℕ) ≥ expiry
  | none => False

/-- Model of `CacheEntry::is_eternal`: `self.expiry.is_none()`. -/
def CacheEntry.is_eternal {T : Type} (e : CacheEntry T) : Bool :=
  e.expiry.isNone

/-- Model of `CacheEntry::get`: the value observed through the returned
shared reference `&T`. -/
def CacheEntry.get {T : Type} (e : CacheEntry T) : T :=
  e.value

/-- Model of `CacheEntry::into_inner`: consume the entry, yield the value. -/
def CacheEntry.into_inner {T : Type} (e : CacheEntry T) : T :=
  e.value

/-- State of the entry after one `is_expired_with_rng` call.  The method
takes `&self` and the struct has no interior mutability, so the call leaves
the entry exactly as it was. -/
def CacheEntry.after_check {T : Type} (e : CacheEntry T) (_now _r : ℝ) : CacheEntry T :=
  e

/-- State of the entry after a sequence of `is_expired` calls, one per
`(now, r)` pair in `qs`. -/
def CacheEntry.after_checks {T : Type} (e : CacheEntry T) (qs : List (ℝ × ℝ)) :
    CacheEntry T :=
  qs.foldl (fun acc q => acc.after_check q.1 q.2) e

/-- One builder-method invocation, for talking about arbitrary chains of
setter calls between `CacheEntry::new` and `build`. -/
inductive BuilderOp (T : Type) where
  | withBeta (beta : ℝ)
  | withDelta (f : T → ℝ)
  | withTtl (t : ℝ) (f : T → ℝ)

/-- Whether a builder-method invocation is a `with_ttl` call. -/
def BuilderOp.setsTtl {T : Type} : BuilderOp T → Bool
  | .withTtl _ _ => true
  | _ => false

/-- Apply one builder-method invocation. -/
def applyOp {T : Type} (b : CacheEntryBuilder T) : BuilderOp T → CacheEntryBuilder T
  | .withBeta beta => b.with_beta beta
  | .withDelta f => b.with_delta f
  | .withTtl t f => b.with_ttl t f

/-- Apply a chain of builder-method invocations, left to right. -/
def applyOps {T : Type} (b : CacheEntryBuilder T) (ops : List (BuilderOp T)) :
    CacheEntryBuilder T :=
  ops.foldl applyOp b

/-- Least sample the `f32` `OpenClosed01` distribution can produce: with 24
random mantissa bits `u`, the sample is `(u + 1) * 2⁻²⁴`, so the all-zero
mock rng of the tests yields `2⁻²⁴`. -/
noncomputable def minDraw : ℝ := 1 / 2 ^ 24

/-- Formalisation of the specification sentences for the expiration check,
word for word: draw `r`, compute the horizon
`recompute_cost * aggressiveness * (-ln r)` and return
`(current_time + horizon) ≥ expiry`; absent expiry returns `false`.
This is the comparison target for the refinement claim about
`is_expired_with_rng`; it omits the millisecond truncation, the rounding
and the saturating cast that the source performs. -/
noncomputable def is_expired_spec {T : Type} (e : CacheEntry T) (now r : ℝ) : Prop :=
  match e.expiry with
  | some expiry => now + e.delta * e.beta * (-Real.log r) ≥ expiry
  | none => False

/-! Helper lemmas about the numeric model. -/

theorem roundMono {x y : ℝ} (h : x ≤ y) : round x ≤ round y := by
  rw [round_eq, round_eq]
  exact Int.floor_le_floor (by linarith)

theorem roundSatU64_le (x : ℝ) : roundSatU64 x ≤ U64_MAX :=
  min_le_left _ _

theorem roundSatU64_mono {x y : ℝ} (h : x ≤ y) : roundSatU64 x ≤ roundSatU64 y :=
  min_le_min le_rfl (Int.toNat_le_toNat (roundMono h))

theorem roundSatU64_of_nonpos {x : ℝ} (h : x ≤ 0) : roundSatU64 x = 0 := by
  have h1 : round x ≤ 0 := by
    rw [round_eq]
    have h2 : ⌊x + 1 / 2⌋ < 1 := by
      rw [Int.floor_lt]
      push_cast
      linarith
    omega
  simp [roundSatU64, Int.toNat_of_nonpos h1]

theorem roundSatU64_eq_of_bounds {x : ℝ} {n : ℕ} (hn : n ≤ U64_MAX)
    (h1 : (n : ℝ) ≤ x + 1 / 2) (h2 : x + 1 / 2 < n + 1) : roundSatU64 x = n := by
  have hr : round x = n := by
    rw [round_eq, Int.floor_eq_iff]
    constructor
    · push_cast
      linarith
    · push_cast
      linarith
  rw [roundSatU64, hr, Int.toNat_natCast]
  exact min_eq_right hn

theorem xfetchMillis_of_pos {d b r : ℝ} (hr : 0 < r) :
    xfetchMillis d b r = roundSatU64 (d * b * (-Real.log r)) := by
  unfold xfetchMillis
  rw [if_neg (ne_of_gt hr)]

theorem xfetchMillis_le (d b r : ℝ) : xfetchMillis d b r ≤ U64_MAX := by
  unfold xfetchMillis
  split
  · split
    · exact le_rfl
    · exact Nat.zero_le _
  · exact roundSatU64_le _

theorem xfetchMillis_one (d b : ℝ) : xfetchMillis d b 1 = 0 := by
  rw [xfetchMillis_of_pos one_pos, Real.log_one, neg_zero, mul_zero]
  exact roundSatU64_of_nonpos le_rfl

theorem xfetchMillis_mono_beta {d r b1 b2 : ℝ} (hd : 0 ≤ d) (hr0 : 0 ≤ r)
    (hr1 : r ≤ 1) (hb : b1 ≤ b2) :
    xfetchMillis d b1 r ≤ xfetchMillis d b2 r := by
  rcases eq_or_lt_of_le hr0 with h0 | hpos
  · unfold xfetchMillis
    rw [if_pos h0.symm, if_pos h0.symm]
    by_cases h1 : 0 < d * b1
    · have hdpos : 0 < d := by
        rcases eq_or_lt_of_le hd with hd0 | hd0
        · exfalso
          rw [← hd0, zero_mul] at h1
          exact lt_irrefl 0 h1
        · exact hd0
      have hb1 : 0 < b1 := by
        by_contra hneg
        push_neg at hneg
        have : d * b1 ≤ 0 := mul_nonpos_of_nonneg_of_nonpos hd hneg
        linarith
      have h2 : 0 < d * b2 := mul_pos hdpos (lt_of_lt_of_le hb1 hb)
      rw [if_pos h1, if_pos h2]
    · rw [if_neg h1]
      exact Nat.zero_le _
  · have hL : 0 ≤ -Real.log r := neg_nonneg.mpr (Real.log_nonpos (le_of_lt hpos) hr1)
    rw [xfetchMillis_of_pos hpos, xfetchMillis_of_pos hpos]
    exact roundSatU64_mono
      (mul_le_mul_of_nonneg_right (mul_le_mul_of_nonneg_left hb hd) hL)

theorem minDraw_pos : 0 < minDraw := by
  rw [minDraw]
  norm_num

theorem neg_log_minDraw : -Real.log minDraw = 24 * Real.log 2 := by
  rw [minDraw, one_div, Real.log_inv, Real.log_pow]
  push_cast
  ring

theorem is_expired_iff {T : Type} (e : CacheEntry T) {xp : ℝ}
    (hexp : e.expiry = some xp) (now r : ℝ) :
    e.is_expired_with_rng now r ↔
      now + (xfetchMillis ((⌊e.delta⌋ : ℤ) : ℝ) e.beta r : ℕ) ≥ xp := by
  unfold CacheEntry.is_expired_with_rng
  rw [hexp]

theorem not_expired_of_none {T : Type} (e : CacheEntry T)
    (hexp : e.expiry = none) (now r : ℝ) :
    ¬ e.is_expired_with_rng now r := by
  unfold CacheEntry.is_expired_with_rng
  rw [hexp]
  exact fun h => h

theorem applyOps_expiry_none {T : Type} (ops : List (BuilderOp T)) :
    ∀ b : CacheEntryBuilder T, b.expiry = none →
      (∀ op ∈ ops, op.setsTtl = false) → (applyOps b ops).expiry = none := by
  induction ops with
  | nil => exact fun b hb _ => hb
  | cons op tl ih =>
    intro b hb hops
    have htl : ∀ o ∈ tl, BuilderOp.setsTtl o = false :=
      fun o ho => hops o (List.mem_cons_of_mem _ ho)
    have hstep : (applyOp b op).expiry = none := by
      cases op with
      | withBeta beta => exact hb
      | withDelta f => exact hb
      | withTtl t f =>
        exfalso
        have := hops _ (List.mem_cons_self _ _)
        simp [BuilderOp.setsTtl] at this
    rw [applyOps, List.foldl_cons]
    exact ih (applyOp b op) hstep htl

theorem after_checks_eq {T : Type} (e : CacheEntry T) (qs : List (ℝ × ℝ)) :
    e.after_checks qs = e := by
  induction qs with
  | nil => rfl
  | cons q tl ih =>
    rw [CacheEntry.after_checks, List.foldl_cons]
    exact ih

/-! Claim theorems. -/

/-- C3: for every entry built from `CacheEntry::new` by a chain of builder
calls that never includes `with_ttl`, the `expiry` field is absent,
`is_eternal()` returns `true`, and `is_expired_with_rng` returns `false` for
every current time and every random draw. -/
theorem eternal_entries_never_expire {T : Type} (v : T) (measured : ℝ)
    (ops : List (BuilderOp T)) (hops : ∀ op ∈ ops, op.setsTtl = false) :
    ((applyOps (CacheEntry.new v measured) ops).build).expiry = none ∧
    ((applyOps (CacheEntry.new v measured) ops).build).is_eternal = true ∧
    ∀ now r,
      ¬ ((applyOps (CacheEntry.new v measured) ops).build).is_expired_with_rng now r := by
  have hexp : (applyOps (CacheEntry.new v measured) ops).expiry = none :=
    applyOps_expiry_none ops _ rfl hops
  have hbuilt : ((applyOps (CacheEntry.new v measured) ops).build).expiry = none := hexp
  refine ⟨hbuilt, ?_, fun now r => not_expired_of_none _ hbuilt now r⟩
  rw [CacheEntry.is_eternal, hbuilt]
  rfl

/-- Witness for C3 at a concrete chain: value `42`, measured cost `3` ms,
then `with_beta 2` and `with_delta (const 7)`; evaluated at `now = 5`,
`r = 1/2`. -/
theorem eternal_entries_never_expire_witness :
    ((applyOps (CacheEntry.new (42 : ℕ) 3)
        [BuilderOp.withBeta 2, BuilderOp.withDelta fun _ => 7]).build).expiry = none ∧
    ((applyOps (CacheEntry.new (42 : ℕ) 3)
        [BuilderOp.withBeta 2, BuilderOp.withDelta fun _ => 7]).build).is_eternal = true ∧
    ¬ ((applyOps (CacheEntry.new (42 : ℕ) 3)
        [BuilderOp.withBeta 2, BuilderOp.withDelta fun _ => 7]).build).is_expired_with_rng
        5 (1 / 2) := by
  have h := eternal_entries_never_expire (42 : ℕ) 3
    [BuilderOp.withBeta 2, BuilderOp.withDelta fun _ => 7]
    (by intro op hop; fin_cases hop <;> simp [BuilderOp.setsTtl])
  exact ⟨h.1, h.2.1, h.2.2 5 (1 / 2)⟩

/-- C6: with the maximal draw `r = 1` of `(0, 1]` the logarithm term is `0`,
the horizon is `0` milliseconds, and an entry whose expiry lies strictly in
the future is not reported expired. -/
theorem max_draw_no_early_expiry {T : Type} (e : CacheEntry T) {xp : ℝ} (now : ℝ)
    (hexp : e.expiry = some xp) (hnow : now < xp) :
    ¬ e.is_expired_with_rng now 1 := by
  rw [is_expired_iff e hexp, xfetchMillis_one]
  push_cast
  linarith

/-- Witness for C6, mirroring the test `test_no_early_expiry`: recompute cost
10 s, ttl 120 s, default beta, checked at the construction instant. -/
theorem max_draw_no_early_expiry_witness :
    ¬ ((((CacheEntry.new () 0).with_delta fun _ => 10000).with_ttl 0
        fun _ => 120000).build).is_expired_with_rng 0 1 :=
  max_draw_no_early_expiry _ 0 rfl (by norm_num)

/-- C7: `with_ttl` stores `t + ttl` where `t` is the instant at which the
setter itself runs, `build` leaves the stored expiry unchanged, and at any
later instant `tb ≥ t` the remaining window `expiry - tb` is the supplied
ttl shortened by exactly the elapsed gap `tb - t`. -/
theorem with_ttl_fixes_expiry {T : Type} (b : CacheEntryBuilder T) (t : ℝ)
    (f : T → ℝ) :
    ((b.with_ttl t f).build).expiry = some (t + f b.value) ∧
    ∀ tb, t ≤ tb →
      ∃ xp, ((b.with_ttl t f).build).expiry = some xp ∧
        xp - tb = f b.value - (tb - t) ∧ xp - tb ≤ f b.value := by
  refine ⟨rfl, fun tb htb => ⟨t + f b.value, rfl, by ring, by linarith⟩⟩

/-- Witness for C7: ttl `100` ms set at instant `2`, observed at instant
`5`, leaving a window of `97` ms. -/
theorem with_ttl_fixes_expiry_witness :
    (((CacheEntry.new (37 : ℕ) 0).with_ttl 2 fun _ => 100).build).expiry =
      some (2 + 100) ∧
    ∃ xp, (((CacheEntry.new (37 : ℕ) 0).with_ttl 2 fun _ => 100).build).expiry =
        some xp ∧ xp - 5 = 100 - (5 - 2) ∧ xp - 5 ≤ 100 :=
  ⟨(with_ttl_fixes_expiry (CacheEntry.new (37 : ℕ) 0) 2 fun _ => 100).1,
    (with_ttl_fixes_expiry (CacheEntry.new (37 : ℕ) 0) 2 fun _ => 100).2 5
      (by norm_num)⟩

/-- C8: `get()` before and after any sequence of `is_expired` calls observes
the same payload, and `into_inner()` after those calls yields that same
payload: expiration checks take `&self` and cannot alter the value field. -/
theorem get_into_inner_frame {T : Type} (e : CacheEntry T) (qs : List (ℝ × ℝ)) :
    (e.after_checks qs).get = e.get ∧
    (e.after_checks qs).into_inner = e.get ∧
    e.into_inner = e.get := by
  rw [after_checks_eq]
  exact ⟨rfl, rfl, rfl⟩

/-- C9: a recompute cost strictly below one millisecond is truncated to `0`
by `as_millis`, so for every nonzero draw the horizon is `0` and the check
degenerates to `now ≥ expiry`. -/
theorem submilli_delta_no_early_expiry {T : Type} (e : CacheEntry T) {xp : ℝ}
    (now r : ℝ) (hexp : e.expiry = some xp) (hd0 : 0 ≤ e.delta)
    (hd1 : e.delta < 1) (hr : 0 < r) :
    xfetchMillis ((⌊e.delta⌋ : ℤ) : ℝ) e.beta r = 0 ∧
    (e.is_expired_with_rng now r ↔ now ≥ xp) := by
  have hfl : ⌊e.delta⌋ = 0 := Int.floor_eq_zero_iff.mpr ⟨hd0, hd1⟩
  have hz : xfetchMillis ((⌊e.delta⌋ : ℤ) : ℝ) e.beta r = 0 := by
    rw [hfl, xfetchMillis_of_pos hr]
    push_cast
    rw [zero_mul, zero_mul]
    exact roundSatU64_of_nonpos le_rfl
  refine ⟨hz, ?_⟩
  rw [is_expired_iff e hexp, hz]
  push_cast
  constructor <;> intro h <;> linarith

/-- Witness for C9: measured cost `1/2` ms, ttl `120000` ms set at instant
`0`, checked at `now = 200000` past the expiry, with draw `r = 1/2`. -/
theorem submilli_delta_no_early_expiry_witness :
    xfetchMillis ((⌊(((CacheEntry.new () (1 / 2)).with_ttl 0
        fun _ => 120000).build).delta⌋ : ℤ) : ℝ)
      ((((CacheEntry.new () (1 / 2)).with_ttl 0 fun _ => 120000).build).beta)
      (1 / 2) = 0 ∧
    ((((CacheEntry.new () (1 / 2)).with_ttl 0
        fun _ => 120000).build).is_expired_with_rng 200000 (1 / 2) ↔
      (200000 : ℝ) ≥ 0 + 120000) :=
  submilli_delta_no_early_expiry _ 200000 (1 / 2) rfl
    (by norm_num [CacheEntryBuilder.build, CacheEntryBuilder.with_ttl, CacheEntry.new])
    (by norm_num [CacheEntryBuilder.build, CacheEntryBuilder.with_ttl, CacheEntry.new])
    (by norm_num)

/-- C10: each builder setter rewrites exactly its own field and leaves the
others unchanged, none touches the stored value, and `build` transfers all
four fields verbatim. -/
theorem builder_setters_frame {T : Type} (b : CacheEntryBuilder T) (beta t : ℝ)
    (f g : T → ℝ) :
    ((b.with_beta beta).value = b.value ∧ (b.with_beta beta).delta = b.delta ∧
      (b.with_beta beta).expiry = b.expiry ∧ (b.with_beta beta).beta = beta) ∧
    ((b.with_delta f).value = b.value ∧ (b.with_delta f).beta = b.beta ∧
      (b.with_delta f).expiry = b.expiry ∧ (b.with_delta f).delta = f b.value) ∧
    ((b.with_ttl t g).value = b.value ∧ (b.with_ttl t g).beta = b.beta ∧
      (b.with_ttl t g).delta = b.delta ∧
      (b.with_ttl t g).expiry = some (t + g b.value)) ∧
    (b.build.value = b.value ∧ b.build.delta = b.delta ∧
      b.build.beta = b.beta ∧ b.build.expiry = b.expiry) :=
  ⟨⟨rfl, rfl, rfl, rfl⟩, ⟨rfl, rfl, rfl, rfl⟩, ⟨rfl, rfl, rfl, rfl⟩,
    rfl, rfl, rfl, rfl⟩

/-- C4: holding the (cast, truncated) recompute cost, the draw and the
current time fixed, a larger beta never yields a smaller horizon, and an
`expired = true` verdict survives any increase of beta. -/
theorem beta_monotone {T : Type} (e : CacheEntry T) (b2 now r : ℝ)
    (hd : 0 ≤ e.delta) (hr0 : 0 ≤ r) (hr1 : r ≤ 1) (hb : e.beta ≤ b2) :
    xfetchMillis ((⌊e.delta⌋ : ℤ) : ℝ) e.beta r ≤
      xfetchMillis ((⌊e.delta⌋ : ℤ) : ℝ) b2 r ∧
    (e.is_expired_with_rng now r →
      ({ e with beta := b2 } : CacheEntry T).is_expired_with_rng now r) := by
  have hdm : (0 : ℝ) ≤ ((⌊e.delta⌋ : ℤ) : ℝ) := by
    exact_mod_cast Int.floor_nonneg.mpr hd
  have hmono := xfetchMillis_mono_beta (d := ((⌊e.delta⌋ : ℤ) : ℝ)) (r := r)
    hdm hr0 hr1 hb
  refine ⟨hmono, fun hexp => ?_⟩
  cases hx : e.expiry with
  | none => exact absurd hexp (not_expired_of_none e hx now r)
  | some xp =>
    have h1 := (is_expired_iff e hx now r).mp hexp
    apply (is_expired_iff _ rfl now r).mpr
    have hcast : ((xfetchMillis ((⌊e.delta⌋ : ℤ) : ℝ) e.beta r : ℕ) : ℝ) ≤
        ((xfetchMillis ((⌊e.delta⌋ : ℤ) : ℝ) b2 r : ℕ) : ℝ) := by
      exact_mod_cast hmono
    calc xp ≤ now + (xfetchMillis ((⌊e.delta⌋ : ℤ) : ℝ) e.beta r : ℕ) := h1
    _ ≤ now + (xfetchMillis ((⌊e.delta⌋ : ℤ) : ℝ) b2 r : ℕ) := by linarith

/-- Witness for C4: cost 10 s, expiry at 120000 ms, beta raised from the
default `1` to `2`, draw `1/2`, checked at `now = 0`. -/
theorem beta_monotone_witness :
    xfetchMillis ((⌊((⟨(), 10000, 1, some 120000⟩ : CacheEntry Unit)).delta⌋ : ℤ) : ℝ)
      ((⟨(), 10000, 1, some 120000⟩ : CacheEntry Unit)).beta (1 / 2) ≤
      xfetchMillis ((⌊((⟨(), 10000, 1, some 120000⟩ : CacheEntry Unit)).delta⌋ : ℤ) : ℝ)
        2 (1 / 2) ∧
    (((⟨(), 10000, 1, some 120000⟩ : CacheEntry Unit)).is_expired_with_rng 0 (1 / 2) →
      ({ (⟨(), 10000, 1, some 120000⟩ : CacheEntry Unit) with beta := 2 } :
        CacheEntry Unit).is_expired_with_rng 0 (1 / 2)) :=
  beta_monotone (⟨(), 10000, 1, some 120000⟩ : CacheEntry Unit) 2 0 (1 / 2)
    (by norm_num) (by norm_num) (by norm_num) (by norm_num)

/-- C2: the horizon value is always at most `u64::MAX` milliseconds (the
saturating cast never overflows), and an underflowed draw `r = 0` in the
unbounded-horizon case `delta * beta > 0` saturates the horizon to exactly
`u64::MAX` milliseconds, so the check degenerates to
`now + u64::MAX ms ≥ expiry` instead of faulting. -/
theorem zero_draw_saturates {T : Type} (e : CacheEntry T) {xp : ℝ} (now : ℝ)
    (hexp : e.expiry = some xp) :
    (∀ r, xfetchMillis ((⌊e.delta⌋ : ℤ) : ℝ) e.beta r ≤ U64_MAX) ∧
    (0 < ((⌊e.delta⌋ : ℤ) : ℝ) * e.beta →
      xfetchMillis ((⌊e.delta⌋ : ℤ) : ℝ) e.beta 0 = U64_MAX ∧
      (e.is_expired_with_rng now 0 ↔ now + (U64_MAX : ℝ) ≥ xp)) := by
  refine ⟨fun r => xfetchMillis_le _ _ _, fun hpos => ?_⟩
  have hx : xfetchMillis ((⌊e.delta⌋ : ℤ) : ℝ) e.beta 0 = U64_MAX := by
    unfold xfetchMillis
    rw [if_pos rfl, if_pos hpos]
  refine ⟨hx, ?_⟩
  rw [is_expired_iff e hexp, hx]

/-- Witness for C2: cost 10 s, beta 1, expiry at 120000 ms, bound checked at
the draw `1/3` and saturation at the underflowed draw `0`. -/
theorem zero_draw_saturates_witness :
    xfetchMillis ((⌊((⟨(), 10000, 1, some 120000⟩ : CacheEntry Unit)).delta⌋ : ℤ) : ℝ)
      1 (1 / 3) ≤ U64_MAX ∧
    xfetchMillis ((⌊((⟨(), 10000, 1, some 120000⟩ : CacheEntry Unit)).delta⌋ : ℤ) : ℝ)
      1 0 = U64_MAX ∧
    (((⟨(), 10000, 1, some 120000⟩ : CacheEntry Unit)).is_expired_with_rng 0 0 ↔
      (0 : ℝ) + (U64_MAX : ℕ) ≥ 120000) := by
  have h := zero_draw_saturates (⟨(), 10000, 1, some 120000⟩ : CacheEntry Unit) 0 rfl
  have hpos : (0 : ℝ) <
      ((⌊((⟨(), 10000, 1, some 120000⟩ : CacheEntry Unit)).delta⌋ : ℤ) : ℝ) * 1 := by
    have : ((⟨(), 10000, 1, some 120000⟩ : CacheEntry Unit)).delta = ((10000 : ℤ) : ℝ) := by
      norm_num
    rw [this, Int.floor_intCast]
    norm_num
  exact ⟨h.1 (1 / 3), (h.2 hpos).1, (h.2 hpos).2⟩

/-- C1 (counterexample): at recompute cost `1` ms, beta `1`, expiry `2` ms,
current time `0` and the valid draw `r = exp(-3/2) ∈ (0, 1]`, the code
reports expired (its rounded horizon is `2` ms) while the literal spec
formula `now + cost * beta * (-ln r) ≥ expiry` gives `1.5 ≥ 2`, which is
false: the claimed equivalence fails because the code truncates the cost to
whole milliseconds and rounds the horizon before comparing. -/
theorem is_expired_formula_cex :
    (0 < Real.exp (-(3 / 2)) ∧ Real.exp (-(3 / 2)) ≤ 1) ∧
    (⟨(), 1, 1, some 2⟩ : CacheEntry Unit).is_expired_with_rng 0
      (Real.exp (-(3 / 2))) ∧
    ¬ is_expired_spec (⟨(), 1, 1, some 2⟩ : CacheEntry Unit) 0
      (Real.exp (-(3 / 2))) := by
  have hrpos : 0 < Real.exp (-(3 / 2)) := Real.exp_pos _
  have hrle : Real.exp (-(3 / 2)) ≤ 1 := by
    rw [show (1 : ℝ) = Real.exp 0 from (Real.exp_zero).symm]
    exact Real.exp_le_exp.mpr (by norm_num)
  refine ⟨⟨hrpos, hrle⟩, ?_, ?_⟩
  · rw [is_expired_iff (⟨(), 1, 1, some 2⟩ : CacheEntry Unit) rfl,
      xfetchMillis_of_pos hrpos]
    have hx : roundSatU64
        ((((⌊((⟨(), 1, 1, some 2⟩ : CacheEntry Unit)).delta⌋ : ℤ) : ℝ)) * 1 *
          (-Real.log (Real.exp (-(3 / 2))))) = 2 := by
      rw [Real.log_exp]
      apply roundSatU64_eq_of_bounds
      · rw [U64_MAX]
        norm_num
      · have : ((⟨(), 1, 1, some 2⟩ : CacheEntry Unit)).delta = 1 := rfl
        rw [this, Int.floor_one]
        push_cast
        norm_num
      · have : ((⟨(), 1, 1, some 2⟩ : CacheEntry Unit)).delta = 1 := rfl
        rw [this, Int.floor_one]
        push_cast
        norm_num
    rw [hx]
    push_cast
    norm_num
  · intro h
    rw [is_expired_spec, Real.log_exp] at h
    norm_num at h

/-- C1 (amended): for every entry with expiry present and every draw
`r ∈ (0, 1]`, the check returns true exactly when the current time plus the
horizon obtained by truncating the recompute cost to whole milliseconds,
multiplying by beta and `-ln r`, rounding to the nearest millisecond and
saturating into the `u64` range reaches the expiry. -/
theorem is_expired_rounded_formula {T : Type} (e : CacheEntry T) {xp : ℝ}
    (now r : ℝ) (hexp : e.expiry = some xp) (hr0 : 0 < r) (_hr1 : r ≤ 1) :
    (e.is_expired_with_rng now r ↔
      now + (min U64_MAX
        (round (((⌊e.delta⌋ : ℤ) : ℝ) * e.beta * (-Real.log r))).toNat : ℕ) ≥ xp) := by
  rw [is_expired_iff e hexp, xfetchMillis_of_pos hr0, roundSatU64]

/-- Witness for C1 (amended): entry with cost `1` ms, beta `1`, expiry `0`,
checked at `now = 0` with the maximal draw `r = 1`. -/
theorem is_expired_rounded_formula_witness :
    ((⟨(), 1, 1, some 0⟩ : CacheEntry Unit)).is_expired_with_rng 0 1 ↔
      (0 : ℝ) + (min U64_MAX
        (round (((⌊((⟨(), 1, 1, some 0⟩ : CacheEntry Unit)).delta⌋ : ℤ) : ℝ) *
          ((⟨(), 1, 1, some 0⟩ : CacheEntry Unit)).beta * (-Real.log 1))).toNat : ℕ) ≥ 0 :=
  is_expired_rounded_formula (⟨(), 1, 1, some 0⟩ : CacheEntry Unit) 0 1 rfl
    (by norm_num) (by norm_num)

/-- C5 (counterexample): the minimal representable draw of `OpenClosed01`
is `2⁻²⁴`, whose horizon at cost 10 s and beta 1 is the finite value
`round (10000 * 24 * ln 2) = 166355` ms; with the expiry `1000000` ms in
the future and `now = 0` the code reports not expired, refuting
"returns true regardless of how far expiry is in the future". -/
theorem min_draw_far_expiry_cex :
    ¬ (⟨(), 10000, 1, some 1000000⟩ : CacheEntry Unit).is_expired_with_rng 0
      minDraw := by
  rw [is_expired_iff (⟨(), 10000, 1, some 1000000⟩ : CacheEntry Unit) rfl,
    xfetchMillis_of_pos minDraw_pos]
  have hd : ((⟨(), 10000, 1, some 1000000⟩ : CacheEntry Unit)).delta =
      ((10000 : ℤ) : ℝ) := by norm_num
  have hx : roundSatU64
      ((((⌊((⟨(), 10000, 1, some 1000000⟩ : CacheEntry Unit)).delta⌋ : ℤ) : ℝ)) * 1 *
        (-Real.log minDraw)) = 166355 := by
    rw [hd, Int.floor_intCast, neg_log_minDraw]
    apply roundSatU64_eq_of_bounds
    · rw [U64_MAX]
      norm_num
    · have := Real.log_two_gt_d9
      push_cast
      nlinarith
    · have := Real.log_two_lt_d9
      push_cast
      nlinarith
  rw [hx]
  push_cast
  norm_num

/-- C5 (amended): with the minimal representable draw `2⁻²⁴`, scenario A
(cost 10 s, ttl 120 s, beta 1.0) reports expired at any instant from the
ttl-setting moment on: the horizon `166355` ms exceeds the 120000 ms ttl. -/
theorem min_draw_scenario_a {T : Type} (v : T) (t0 now : ℝ) (hnow : t0 ≤ now) :
    ((((CacheEntry.new v 0).with_delta fun _ => 10000).with_ttl t0
      fun _ => 120000).build).is_expired_with_rng now minDraw := by
  have hb : ((((CacheEntry.new v 0).with_delta fun _ => 10000).with_ttl t0
      fun _ => 120000).build) =
      (⟨v, 10000, 1, some (t0 + 120000)⟩ : CacheEntry T) := rfl
  rw [hb, is_expired_iff (⟨v, 10000, 1, some (t0 + 120000)⟩ : CacheEntry T) rfl,
    xfetchMillis_of_pos minDraw_pos]
  have hd : ((⟨v, 10000, 1, some (t0 + 120000)⟩ : CacheEntry T)).delta =
      ((10000 : ℤ) : ℝ) := by norm_num
  have hx : roundSatU64
      ((((⌊((⟨v, 10000, 1, some (t0 + 120000)⟩ : CacheEntry T)).delta⌋ : ℤ) : ℝ)) * 1 *
        (-Real.log minDraw)) = 166355 := by
    rw [hd, Int.floor_intCast, neg_log_minDraw]
    apply roundSatU64_eq_of_bounds
    · rw [U64_MAX]
      norm_num
    · have := Real.log_two_gt_d9
      push_cast
      nlinarith
    · have := Real.log_two_lt_d9
      push_cast
      nlinarith
  rw [hx]
  push_cast
  linarith

/-- Witness for C5 (amended): scenario A built at instant `0` and checked
at that same instant. -/
theorem min_draw_scenario_a_witness :
    ((((CacheEntry.new () 0).with_delta fun _ => 10000).with_ttl 0
      fun _ => 120000).build).is_expired_with_rng 0 minDraw :=
  min_draw_scenario_a () 0 0 (by norm_num)

end XFetch
